import Mathlib

/-! Verification development for the trusted-cloud proxy core (`cmd/goproxy.go`).

Strings are modelled as lists of characters.  HTTP handlers are pure
functions over oracles describing filesystem probes and the outcomes of the
external `git` invocations; each handler returns the response it writes
together with counters for the side effects it performs (fetch executions,
git listings).  The on-disk cache is an association list from file paths to
artifacts, and `fetchAndCache` is modelled as a state transformer that also
records the sequence of externally visible intermediate cache states. -/

namespace TrustedCloudProxy

abbrev Str := List Char

/-- Model of `filepath.Join` on already-clean path components: interpose a
single slash between consecutive components. -/
def pathJoin : List Str → Str
  | [] => []
  | [p] => p
  | p :: q :: ps => p ++ '/' :: pathJoin (q :: ps)

/-- Modelled from the dependency `golang.org/x/mod/module.unescapeString`
(the code calls `module.UnescapePath`, which is this scan followed by a path
validity check that only rejects further inputs): a `!x` pair decodes to the
uppercase of `x`, a bang not followed by a lowercase letter is malformed,
bare uppercase letters and non-ASCII characters are malformed.  The first
argument is the pending-bang flag of the scan. -/
def unescapeAux : Bool → Str → Option Str
  | true, [] => none
  | false, [] => some []
  | bang, c :: rest =>
    if 128 ≤ c.toNat then none
    else if bang then
      if 'a' ≤ c ∧ c ≤ 'z' then (unescapeAux false rest).map (fun s => c.toUpper :: s)
      else none
    else if c = '!' then unescapeAux true rest
    else if 'A' ≤ c ∧ c ≤ 'Z' then none
    else (unescapeAux false rest).map (fun s => c :: s)

/-- Model of `module.UnescapePath` (see `unescapeAux`). -/
def unescapePath (s : Str) : Option Str := unescapeAux false s

/-- Model of `module.UnescapeVersion`, which uses the same character scan. -/
def unescapeVersion (s : Str) : Option Str := unescapeAux false s

/-- Model of `w.Header().Set`: replace any binding of the key, add the new one. -/
def setHeader (hs : List (Str × Str)) (k v : Str) : List (Str × Str) :=
  (k, v) :: hs.filter (fun p => !(p.1 == k))

/-- A cached or served artifact: plain file bytes, or a zip archive described
by its entry names (the content of archived files is irrelevant to the
properties checked here). -/
inductive Artifact
  | text (content : Str)
  | zipA (entries : List Str)
deriving DecidableEq

/-- An HTTP response: status code, headers, body. -/
structure Response where
  status : Nat
  headers : List (Str × Str)
  body : Artifact
deriving DecidableEq

def ccKey : Str := "Cache-Control".toList

def noStore : Str := "no-store".toList

def ctKey : Str := "Content-Type".toList

def jsonMime : Str := "application/json".toList

def modMime : Str := "text/plain; charset=UTF-8".toList

def zipMime : Str := "application/zip".toList

def xctoKey : Str := "X-Content-Type-Options".toList

def nosniffVal : Str := "nosniff".toList

def tplainMime : Str := "text/plain; charset=utf-8".toList

/-- Model of Go's `http.Error`: sets `Content-Type: text/plain; charset=utf-8`
and `X-Content-Type-Options: nosniff` on the writer (preserving any headers
already set), then writes the status code and the message plus a newline. -/
def httpError (w : List (Str × Str)) (msg : Str) (code : Nat) : Response :=
  { status := code
  , headers := setHeader (setHeader w ctKey tplainMime) xctoKey nosniffVal
  , body := .text (msg ++ ['\n']) }

/-- The configuration globals `CacheDir`, `SrcRepo`, `DestRepo`, `DestRepoToken`. -/
structure Config where
  cacheDir : Str
  srcRepo : Str
  destRepo : Str
  token : Str

/-- Last `/`-separated segment of a module name (`segment[len(segment)-1]`). -/
def lastSegment (name : Str) : Str := (name.splitOn '/').getLastD []

/-- The destination repository address `DestRepo/<last segment>`. -/
def repoURLFor (cfg : Config) (name : Str) : Str :=
  cfg.destRepo ++ '/' :: lastSegment name

/-- Environment describing the outcomes of the external steps performed by
`fetchAndCache`, in source order: `os.MkdirTemp`, `os.MkdirAll` of the cache
entry directory, `git clone`, `git log -1 --format=%cI`, `json.Marshal`,
`os.WriteFile` of the info file, `copyFile` of `go.mod`, `git archive`, and
`copyFile` of `source.zip`; plus the data those steps produce. -/
structure FetchEnv where
  tempOk : Bool
  mkdirOk : Bool
  cloneOk : Bool
  logOk : Bool
  marshalOk : Bool
  writeInfoOk : Bool
  copyModOk : Bool
  archiveOk : Bool
  copyZipOk : Bool
  logDate : Str
  modContent : Str
  repoFiles : List Str
  mkdirErr : Str
  cloneErr : Str
deriving DecidableEq

/-- How a call of `fetchAndCache` ends: normal return of `nil`, normal return
of an error value, or process termination through `log.Fatalf`. -/
inductive FetchOutcome
  | ok
  | errored (msg : Str)
  | fatal
deriving DecidableEq

/-- The on-disk cache, as an association list from paths to artifacts;
later insertions shadow earlier bindings. -/
abbrev Cache := List (Str × Artifact)

def clookup (c : Cache) (p : Str) : Option Artifact :=
  (c.find? (fun q => q.1 == p)).map (·.2)

def cinsert (c : Cache) (p : Str) (a : Artifact) : Cache := (p, a) :: c

/-- Result of a `fetchAndCache` call: its outcome, the final cache, the list
of externally visible cache states in order (initial state included), the
cache directories it created, and whether the scratch clone directory was
created and later removed. -/
structure FetchResult where
  outcome : FetchOutcome
  cache : Cache
  trace : List Cache
  dirsCreated : List Str
  scratchCreated : Bool
  scratchDiscarded : Bool
deriving DecidableEq

def infoFileName (cfg : Config) (name version : Str) : Str :=
  pathJoin [cfg.cacheDir, name, version, version ++ ".info".toList]

def modFileName (cfg : Config) (name version : Str) : Str :=
  pathJoin [cfg.cacheDir, name, version, "go.mod".toList]

def zipFileName (cfg : Config) (name version : Str) : Str :=
  pathJoin [cfg.cacheDir, name, version, "source.zip".toList]

/-- Bytes of `json.Marshal(Info\x7bVersion, Time\x7d)` (value escaping inside the
two strings is not modelled; the artifacts serve as opaque bytes). -/
def jsonInfo (version date : Str) : Str :=
  "\x7b\"Version\":\"".toList ++ version ++ "\",\"Time\":\"".toList ++ date ++ "\"\x7d".toList

/-- Entry names produced by `git archive --prefix=<name>@<version>/ ... version .`
run in the clone: every working-tree file (version-control metadata is not
part of the working tree) prefixed by `<name>@<version>/`. -/
def zipEntriesOf (name version : Str) (files : List Str) : List Str :=
  files.map (fun f => name ++ '@' :: version ++ '/' :: f)

/-- Model of `fetchAndCache` (goproxy.go:857-960).  Steps in source order:
`os.MkdirTemp` (failure: `log.Fatalf`), `os.MkdirAll(destDir)` (failure:
`return err`), `git clone` (failure: `return err`), `git log` (failure:
`log.Fatalf`), `json.Marshal` (failure: `log.Fatalf`), write the info file
(failure: `log.Fatalf`), copy `go.mod` (failure: `log.Fatalf`), `git archive`
(failure: `log.Fatalf`), copy `source.zip` (failure: `log.Fatalf`).  The three
artifacts are written one by one directly into the cache entry directory, so
each write is a new externally visible state; the `defer os.RemoveAll` of the
clone directory is commented out in the source, so the scratch directory is
never discarded. -/
def fetchAndCache (cfg : Config) (e : FetchEnv) (name version : Str) (c : Cache) :
    FetchResult :=
  if !e.tempOk then
    { outcome := .fatal, cache := c, trace := [c], dirsCreated := []
    , scratchCreated := false, scratchDiscarded := false }
  else if !e.mkdirOk then
    { outcome := .errored e.mkdirErr, cache := c, trace := [c], dirsCreated := []
    , scratchCreated := true, scratchDiscarded := false }
  else
    let destDir := pathJoin [cfg.cacheDir, name, version]
    if !e.cloneOk then
      { outcome := .errored e.cloneErr, cache := c, trace := [c], dirsCreated := [destDir]
      , scratchCreated := true, scratchDiscarded := false }
    else if !e.logOk then
      { outcome := .fatal, cache := c, trace := [c], dirsCreated := [destDir]
      , scratchCreated := true, scratchDiscarded := false }
    else if !e.marshalOk then
      { outcome := .fatal, cache := c, trace := [c], dirsCreated := [destDir]
      , scratchCreated := true, scratchDiscarded := false }
    else if !e.writeInfoOk then
      { outcome := .fatal, cache := c, trace := [c], dirsCreated := [destDir]
      , scratchCreated := true, scratchDiscarded := false }
    else
      let c1 := cinsert c (infoFileName cfg name version) (.text (jsonInfo version e.logDate))
      if !e.copyModOk then
        { outcome := .fatal, cache := c1, trace := [c, c1], dirsCreated := [destDir]
        , scratchCreated := true, scratchDiscarded := false }
      else
        let c2 := cinsert c1 (modFileName cfg name version) (.text e.modContent)
        if !e.archiveOk then
          { outcome := .fatal, cache := c2, trace := [c, c1, c2], dirsCreated := [destDir]
          , scratchCreated := true, scratchDiscarded := false }
        else if !e.copyZipOk then
          { outcome := .fatal, cache := c2, trace := [c, c1, c2], dirsCreated := [destDir]
          , scratchCreated := true, scratchDiscarded := false }
        else
          let c3 := cinsert c2 (zipFileName cfg name version)
            (.zipA (zipEntriesOf name version e.repoFiles))
          { outcome := .ok, cache := c3, trace := [c, c1, c2, c3], dirsCreated := [destDir]
          , scratchCreated := true, scratchDiscarded := false }

/-- Outcome of a `fetchAndCache` call; it depends only on the environment. -/
def fetchOutcomeOf (cfg : Config) (e : FetchEnv) (name version : Str) : FetchOutcome :=
  (fetchAndCache cfg e name version []).outcome

/-- What a handler invocation produces: a response written to the client, or
process death through `log.Fatalf` inside the fetch. -/
inductive HResult
  | resp (r : Response)
  | died
deriving DecidableEq

def statusOf : HResult → Option Nat
  | .resp r => some r.status
  | .died => none

/-- Handler invocation result plus the number of `fetchAndCache` executions
it performed. -/
structure HOut where
  result : HResult
  fetchCalls : Nat
deriving DecidableEq

/-- Model of `serveCachedFile` (goproxy.go:845-855): unconditionally sets
`Cache-Control: no-store` and the content type on the writer, then serves the
file if the `os.Stat` probe succeeds (`http.ServeFile` keeps an already-set
content type).  Returns the updated writer headers and the response, if any. -/
def serveCachedFile (w : List (Str × Str)) (probe : Option Artifact) (mime : Str) :
    (List (Str × Str)) × Option Response :=
  let w1 := setHeader w ccKey noStore
  let w2 := setHeader w1 ctKey mime
  match probe with
  | some a => (w2, some { status := 200, headers := w2, body := a })
  | none => (w2, none)

/-- Model of the `info` handler (goproxy.go:774-796).  `fs i p` is the result
of the `i`-th `os.Stat`-and-read of path `p` during this request (the real
filesystem is shared, so the two probes are independent observations). -/
def info (cfg : Config) (fs : Nat → Str → Option Artifact) (e : FetchEnv)
    (em v : Str) : HOut :=
  let filename := infoFileName cfg em v
  match serveCachedFile [] (fs 0 filename) jsonMime with
  | (_, some r) => { result := .resp r, fetchCalls := 0 }
  | (w1, none) =>
    match fetchOutcomeOf cfg e em v with
    | .errored msg => { result := .resp (httpError w1 msg 500), fetchCalls := 1 }
    | .fatal => { result := .died, fetchCalls := 1 }
    | .ok =>
      match serveCachedFile w1 (fs 1 filename) jsonMime with
      | (_, some r) => { result := .resp r, fetchCalls := 1 }
      | (w2, none) =>
        { result := .resp { status := 200, headers := w2, body := .text [] }
        , fetchCalls := 1 }

/-- Model of the `mod` handler (goproxy.go:798-820). -/
def mod (cfg : Config) (fs : Nat → Str → Option Artifact) (e : FetchEnv)
    (em v : Str) : HOut :=
  let filename := modFileName cfg em v
  match serveCachedFile [] (fs 0 filename) modMime with
  | (_, some r) => { result := .resp r, fetchCalls := 0 }
  | (w1, none) =>
    match fetchOutcomeOf cfg e em v with
    | .errored msg => { result := .resp (httpError w1 msg 500), fetchCalls := 1 }
    | .fatal => { result := .died, fetchCalls := 1 }
    | .ok =>
      match serveCachedFile w1 (fs 1 filename) modMime with
      | (_, some r) => { result := .resp r, fetchCalls := 1 }
      | (w2, none) =>
        { result := .resp { status := 200, headers := w2, body := .text [] }
        , fetchCalls := 1 }

/-- Model of the `zip` handler (goproxy.go:822-843). -/
def zip (cfg : Config) (fs : Nat → Str → Option Artifact) (e : FetchEnv)
    (em v : Str) : HOut :=
  let filename := zipFileName cfg em v
  match serveCachedFile [] (fs 0 filename) zipMime with
  | (_, some r) => { result := .resp r, fetchCalls := 0 }
  | (w1, none) =>
    match fetchOutcomeOf cfg e em v with
    | .errored msg => { result := .resp (httpError w1 msg 500), fetchCalls := 1 }
    | .fatal => { result := .died, fetchCalls := 1 }
    | .ok =>
      match serveCachedFile w1 (fs 1 filename) zipMime with
      | (_, some r) => { result := .resp r, fetchCalls := 1 }
      | (w2, none) =>
        { result := .resp { status := 200, headers := w2, body := .text [] }
        , fetchCalls := 1 }

def trimSpace (s : Str) : Str :=
  ((s.dropWhile Char.isWhitespace).reverse.dropWhile Char.isWhitespace).reverse

def refsTags : Str := "refs/tags/".toList

/-- The loop body of `listVersionsGit` (goproxy.go:744-765): for each line of
`git ls-remote --tags` output, trim whitespace, split on `/`, and when the
line has more than two segments and contains `refs/tags/`, append the final
segment to the accumulated result. -/
def lsLoop : List Str → List Str → List Str
  | [], acc => acc
  | l :: rest, acc =>
    let t := trimSpace l
    let segs := t.splitOn '/'
    if 2 < segs.length ∧ refsTags <:+: t then
      lsLoop rest (acc ++ [segs.getLastD []])
    else
      lsLoop rest acc

/-- Model of the parsing performed by `listVersionsGit` (goproxy.go:719-772)
on the raw `git ls-remote --tags` output lines. -/
def listVersionsGit (lines : List Str) : List Str := lsLoop lines []

/-- The contribution of a single output line to the version list. -/
def tagOfLine (l : Str) : Option Str :=
  let t := trimSpace l
  let segs := t.splitOn '/'
  if 2 < segs.length ∧ refsTags <:+: t then some (segs.getLastD []) else none

def decodeErrMsg : Str := "malformed escaped module path".toList

/-- List handler result plus the number of `git ls-remote` executions. -/
structure LOut where
  resp : Response
  gitCalls : Nat
deriving DecidableEq

/-- Model of the `list` handler (goproxy.go:693-715): decode the module with
`module.UnescapePath` (failure: 400, before any git work), run
`listVersionsGit` (failure: 404), then set `Cache-Control: no-store` and
print each version on its own line.  `gitResult` is the outcome of the
`git ls-remote` invocation: its raw output lines, or an error message. -/
def list (gitResult : Except Str (List Str)) (em : Str) : LOut :=
  match unescapePath em with
  | none => { resp := httpError [] decodeErrMsg 400, gitCalls := 0 }
  | some _ =>
    match gitResult with
    | .error msg => { resp := httpError [] msg 404, gitCalls := 1 }
    | .ok lines =>
      let versions := listVersionsGit lines
      { resp := { status := 200
                , headers := setHeader [] ccKey noStore
                , body := .text ((versions.map (fun v => v ++ ['\n'])).flatten) }
      , gitCalls := 1 }

/-- The four routed endpoint shapes (gorilla/mux patterns in `main`). -/
inductive Route
  | listR (em : Str)
  | infoR (em v : Str)
  | modR (em v : Str)
  | zipR (em v : Str)

/-- The URL path of a request for the given route. -/
def pathOf : Route → Str
  | .listR em => '/' :: em ++ "/@v/list".toList
  | .infoR em v => '/' :: em ++ "/@v/".toList ++ v ++ ".info".toList
  | .modR em v => '/' :: em ++ "/@v/".toList ++ v ++ ".mod".toList
  | .zipR em v => '/' :: em ++ "/@v/".toList ++ v ++ ".zip".toList

/-- The raw (escaped) module segment of a route. -/
def moduleOf : Route → Str
  | .listR em => em
  | .infoR em _ => em
  | .modR em _ => em
  | .zipR em _ => em

/-- The part of the path after the module segment and the `/@` marker. -/
def restOf : Route → Str
  | .listR _ => 'v' :: '/' :: "list".toList
  | .infoR _ v => 'v' :: '/' :: (v ++ ".info".toList)
  | .modR _ v => 'v' :: '/' :: (v ++ ".mod".toList)
  | .zipR _ v => 'v' :: '/' :: (v ++ ".zip".toList)

/-- Model of the `isValidPkg` middleware (goproxy.go:683-691): a path without
the `/<SrcRepo>` prefix is answered `404 <url> is ignored` and the wrapped
router is never invoked (`none` means the request is passed through). -/
def isValidPkg (cfg : Config) (path : Str) : Option Response :=
  if ('/' :: cfg.srcRepo) <+: path then none
  else some (httpError [] (path ++ " is ignored".toList) 404)

/-- Full request result: response or death, plus side-effect counters. -/
structure AppOut where
  result : HResult
  fetchCalls : Nat
  gitCalls : Nat
deriving DecidableEq

/-- The served application: `isValidPkg` wrapping the mux router over the
four endpoint handlers. -/
def handleRequest (cfg : Config) (fs : Nat → Str → Option Artifact) (e : FetchEnv)
    (gitResult : Except Str (List Str)) (r : Route) : AppOut :=
  match isValidPkg cfg (pathOf r) with
  | some resp => { result := .resp resp, fetchCalls := 0, gitCalls := 0 }
  | none =>
    match r with
    | .listR em =>
      let o := list gitResult em
      { result := .resp o.resp, fetchCalls := 0, gitCalls := o.gitCalls }
    | .infoR em v =>
      let o := info cfg fs e em v
      { result := o.result, fetchCalls := o.fetchCalls, gitCalls := 0 }
    | .modR em v =>
      let o := mod cfg fs e em v
      { result := o.result, fetchCalls := o.fetchCalls, gitCalls := 0 }
    | .zipR em v =>
      let o := zip cfg fs e em v
      { result := o.result, fetchCalls := o.fetchCalls, gitCalls := 0 }

/-! Interleaving model for two concurrent requests on the same cold cache
key.  Go's `net/http` dispatches each request on its own goroutine and the
handlers contain no synchronization, so the `os.Stat` probe, the
`fetchAndCache` execution and the final serve of the two requests may
interleave arbitrarily.  A handler on a missing key runs: probe (miss),
fetch (installs the entry on success), second probe and serve. -/

/-- Program counter of one request handler working on a cold key. -/
inductive RPc
  | start
  | willFetch
  | afterFetch
  | doneR
deriving DecidableEq

/-- Shared state of two concurrent requests for the same key: whether the
cache entry is installed, both program counters, and the number of
`fetchAndCache` executions started so far. -/
structure TwoState where
  cached : Bool
  pc1 : RPc
  pc2 : RPc
  fetches : Nat
deriving DecidableEq

/-- One atomic step of a single handler: the initial probe branches on the
cache, a fetch installs the entry and counts one execution, then the handler
re-probes and serves. -/
def stepPc (cached : Bool) : RPc → RPc × Bool × Nat
  | .start => if cached then (.doneR, cached, 0) else (.willFetch, cached, 0)
  | .willFetch => (.afterFetch, true, 1)
  | .afterFetch => (.doneR, cached, 0)
  | .doneR => (.doneR, cached, 0)

/-- Step of the interleaved system: `who = true` advances request 1. -/
def cstep (s : TwoState) (who : Bool) : TwoState :=
  if who then
    let (pc, ch, k) := stepPc s.cached s.pc1
    { cached := ch, pc1 := pc, pc2 := s.pc2, fetches := s.fetches + k }
  else
    let (pc, ch, k) := stepPc s.cached s.pc2
    { cached := ch, pc1 := s.pc1, pc2 := pc, fetches := s.fetches + k }

/-- Run a schedule (a list of which request moves next). -/
def crun (s : TwoState) (sched : List Bool) : TwoState := sched.foldl cstep s

/-- Both requests arrive while the key is cold. -/
def coldState : TwoState :=
  { cached := false, pc1 := .start, pc2 := .start, fetches := 0 }

/-! Concrete fixtures used by counterexamples and witnesses. -/

def cfg0 : Config :=
  { cacheDir := "/tmp/cache".toList
  , srcRepo := "pegasus-cloud.com/aes".toList
  , destRepo := "github.com/trusted-cloud".toList
  , token := "tok".toList }

def envAllOk : FetchEnv :=
  { tempOk := true, mkdirOk := true, cloneOk := true, logOk := true
  , marshalOk := true, writeInfoOk := true, copyModOk := true
  , archiveOk := true, copyZipOk := true
  , logDate := "2023-05-01T12:00:00+00:00".toList
  , modContent := "module pegasus-cloud.com/aes/toolkits\n".toList
  , repoFiles := ["go.mod".toList, "main.go".toList]
  , mkdirErr := "mkdir failed".toList
  , cloneErr := "clone failed".toList }

def fsEmpty : Nat → Str → Option Artifact := fun _ _ => none

def em0 : Str := "pegasus-cloud.com/aes/toolkits".toList

def v0 : Str := "v0.4.5".toList

def envLogFail : FetchEnv := { envAllOk with logOk := false }

def emEsc : Str := "pegasus-cloud.com/aes/!toolkit".toList

/-- Whether a response carries some `Cache-Control` header. -/
def hasCC (r : Response) : Bool := r.headers.any (fun p => p.1 == ccKey)

def envMkdirFail : FetchEnv := { envAllOk with mkdirOk := false }

/-- The value of the `Cache-Control` header of a response, if any. -/
def ccValue (r : Response) : Option Str :=
  (r.headers.find? (fun p => p.1 == ccKey)).map (·.2)

/-- A handler result that, when it is a response at all, carries exactly
`Cache-Control: no-store`. -/
def hasNoStore : HResult → Prop
  | .resp r => ccValue r = some noStore
  | .died => True

/-- A character that the escape codec passes through literally: not the
escape marker, not an uppercase letter, ASCII. -/
def literalChar (c : Char) : Prop :=
  c ≠ '!' ∧ ¬ ('A' ≤ c ∧ c ≤ 'Z') ∧ c.toNat < 128

instance (c : Char) : Decidable (literalChar c) :=
  inferInstanceAs (Decidable (c ≠ '!' ∧ ¬ ('A' ≤ c ∧ c ≤ 'Z') ∧ c.toNat < 128))

/-- Number of fetch executions a handler performs, as counted by `fcnt` of a
program counter: a handler past `willFetch` has started exactly one fetch. -/
def fcnt : RPc → Nat
  | .start => 0
  | .willFetch => 0
  | .afterFetch => 1
  | .doneR => 1

/-- Invariant of the two-request system once both requests have taken their
initial probe on a cold key: the fetch counter equals the number of handlers
that have passed their fetch step. -/
def cInv (s : TwoState) : Prop :=
  s.pc1 ≠ .start ∧ s.pc2 ≠ .start ∧ s.fetches = fcnt s.pc1 + fcnt s.pc2

lemma cInv_step (s : TwoState) (w : Bool) (h : cInv s) : cInv (cstep s w) := by
  obtain ⟨h1, h2, hf⟩ := h
  rcases s with ⟨cached, pc1, pc2, f⟩
  cases w <;> cases pc1 <;> cases pc2 <;>
    simp_all [cstep, stepPc, cInv, fcnt]

lemma cInv_run (sched : List Bool) (s : TwoState) (h : cInv s) : cInv (crun s sched) := by
  induction sched generalizing s with
  | nil => exact h
  | cons w rest ih => exact ih (cstep s w) (cInv_step s w h)

/-- C1: the fetch for a key does not install its artifacts atomically.  On a
fully successful fetch from a cold key, the sequence of externally visible
cache states contains a state in which the Info record is present while
`go.mod` and `source.zip` are absent (artifacts are written one at a time
directly into the cache directory), and the scratch clone workspace is
created but never discarded. -/
theorem c1_nonatomic_install_exhibit :
    (fetchAndCache cfg0 envAllOk em0 v0 []).outcome = .ok ∧
    ((fetchAndCache cfg0 envAllOk em0 v0 []).trace.getD 1 []) ∈
      (fetchAndCache cfg0 envAllOk em0 v0 []).trace ∧
    (clookup ((fetchAndCache cfg0 envAllOk em0 v0 []).trace.getD 1 [])
      (infoFileName cfg0 em0 v0)).isSome = true ∧
    clookup ((fetchAndCache cfg0 envAllOk em0 v0 []).trace.getD 1 [])
      (modFileName cfg0 em0 v0) = none ∧
    clookup ((fetchAndCache cfg0 envAllOk em0 v0 []).trace.getD 1 [])
      (zipFileName cfg0 em0 v0) = none ∧
    (fetchAndCache cfg0 envAllOk em0 v0 []).scratchCreated = true ∧
    (fetchAndCache cfg0 envAllOk em0 v0 []).scratchDiscarded = false := by
  decide

/-- C2 counterexample: with two concurrent requests for the same cold key,
the schedule that lets both requests take their initial probe before either
fetches drives both to completion with two fetch executions, not one — there
is no per-key exclusivity in the code. -/
theorem c2_two_fetches_schedule :
    crun coldState [true, false, true, false, true, false] =
      { cached := true, pc1 := .doneR, pc2 := .doneR, fetches := 2 } := by
  decide

/-- C2 amended: concurrent misses are not single-flighted.  After both
requests probe the cold key (schedule prefix `[true, false]`), every
continuation that completes both requests performs exactly two fetch
executions. -/
theorem c2_no_single_flight (rest : List Bool)
    (h1 : (crun (crun coldState [true, false]) rest).pc1 = .doneR)
    (h2 : (crun (crun coldState [true, false]) rest).pc2 = .doneR) :
    (crun (crun coldState [true, false]) rest).fetches = 2 := by
  have h0 : cInv (crun coldState [true, false]) := ⟨by decide, by decide, by decide⟩
  obtain ⟨-, -, hf⟩ := cInv_run rest (crun coldState [true, false]) h0
  rw [h1, h2] at hf
  simpa [fcnt] using hf

theorem c2_no_single_flight_witness :
    (crun (crun coldState [true, false]) [true, false, true, false]).pc1 = .doneR ∧
    (crun (crun coldState [true, false]) [true, false, true, false]).pc2 = .doneR ∧
    (crun (crun coldState [true, false]) [true, false, true, false]).fetches = 2 :=
  ⟨by decide, by decide,
    c2_no_single_flight [true, false, true, false] (by decide) (by decide)⟩

/-- C3 counterexample: the `.info` handler does not decode its segments.  For
the version segment `!!` — which is not produced by any valid encode, so
`UnescapeVersion` rejects it — the handler on a cold cache responds 200 (not
400) and performs a fetch, which creates a cache directory for the malformed
key and runs version-control commands. -/
theorem c3_artifact_endpoints_skip_decode :
    unescapeVersion "!!".toList = none ∧
    (info cfg0 fsEmpty envAllOk em0 "!!".toList).fetchCalls = 1 ∧
    statusOf (info cfg0 fsEmpty envAllOk em0 "!!".toList).result = some 200 ∧
    (fetchAndCache cfg0 envAllOk em0 "!!".toList []).dirsCreated ≠ [] := by
  decide

/-- C4 counterexample: a local failure while reading the resolved commit
timestamp (`git log -1 --format=%cI`) does not surface as a 500 to the
originating request — `fetchAndCache` calls `log.Fatalf`, terminating the
process without writing any response. -/
theorem c4_local_failure_kills_process :
    (info cfg0 fsEmpty envLogFail em0 v0).result = .died := by
  decide

/-- C5 counterexample: the list parser neither removes duplicates nor is
order-independent.  Two distinct tags `a/v1` and `b/v1` (tag names may
contain slashes) both contribute their final segment `v1`, so the output
contains `v1` twice; and permuting the listing lines permutes the output. -/
theorem c5_duplicates_and_order :
    listVersionsGit ["h1\trefs/tags/a/v1".toList, "h2\trefs/tags/b/v1".toList] =
      ["v1".toList, "v1".toList] ∧
    listVersionsGit ["h1\trefs/tags/v1".toList, "h2\trefs/tags/v2".toList] ≠
      listVersionsGit ["h2\trefs/tags/v2".toList, "h1\trefs/tags/v1".toList] := by
  decide

lemma lsLoop_eq (lines : List Str) (acc : List Str) :
    lsLoop lines acc = acc ++ lines.filterMap tagOfLine := by
  induction lines generalizing acc with
  | nil => simp [lsLoop]
  | cons l rest ih =>
    by_cases h : 2 < ((trimSpace l).splitOn '/').length ∧ refsTags <:+: trimSpace l
    · simp [lsLoop, tagOfLine, h, ih]
    · simp [lsLoop, tagOfLine, h, ih]

/-- C5 amended: the body of a successful list response is the sequence, in
listing order and with duplicates preserved, of the final `/`-segments of
exactly those trimmed output lines that contain `refs/tags/` and split into
more than two segments. -/
theorem c5_list_parse (lines : List Str) :
    listVersionsGit lines = lines.filterMap tagOfLine := by
  simpa using lsLoop_eq lines []

/-- C3 amended: only the `list` endpoint decodes its segments.  A malformed
module escape on `list` yields a 400 before any git invocation; the `.info`,
`.mod` and `.zip` handlers never decode and never answer 400 — they treat the
raw segments as literal cache keys, whatever the probe and fetch outcomes. -/
theorem c3_decode_handling (cfg : Config) (gitResult : Except Str (List Str))
    (fs : Nat → Str → Option Artifact) (e : FetchEnv) (em v : Str)
    (hm : unescapePath em = none) :
    list gitResult em = ⟨httpError [] decodeErrMsg 400, 0⟩ ∧
    statusOf (info cfg fs e em v).result ≠ some 400 ∧
    statusOf (mod cfg fs e em v).result ≠ some 400 ∧
    statusOf (zip cfg fs e em v).result ≠ some 400 := by
  refine ⟨by simp [list, hm], ?_, ?_, ?_⟩
  · unfold info
    rcases hfs : fs 0 (infoFileName cfg em v) with _ | a
    · simp [serveCachedFile, hfs]
      rcases ho : fetchOutcomeOf cfg e em v with _ | msg | _ <;>
        simp [ho, httpError, statusOf]
      rcases hfs1 : fs 1 (infoFileName cfg em v) with _ | b <;> simp [statusOf]
    · simp [serveCachedFile, hfs, statusOf]
  · unfold mod
    rcases hfs : fs 0 (modFileName cfg em v) with _ | a
    · simp [serveCachedFile, hfs]
      rcases ho : fetchOutcomeOf cfg e em v with _ | msg | _ <;>
        simp [ho, httpError, statusOf]
      rcases hfs1 : fs 1 (modFileName cfg em v) with _ | b <;> simp [statusOf]
    · simp [serveCachedFile, hfs, statusOf]
  · unfold zip
    rcases hfs : fs 0 (zipFileName cfg em v) with _ | a
    · simp [serveCachedFile, hfs]
      rcases ho : fetchOutcomeOf cfg e em v with _ | msg | _ <;>
        simp [ho, httpError, statusOf]
      rcases hfs1 : fs 1 (zipFileName cfg em v) with _ | b <;> simp [statusOf]
    · simp [serveCachedFile, hfs, statusOf]

theorem c3_decode_handling_witness :
    unescapePath "!!".toList = none ∧
    list (.ok []) "!!".toList = ⟨httpError [] decodeErrMsg 400, 0⟩ ∧
    statusOf (info cfg0 fsEmpty envAllOk "!!".toList v0).result ≠ some 400 :=
  ⟨by decide,
    (c3_decode_handling cfg0 (.ok []) fsEmpty envAllOk "!!".toList v0 (by decide)).1,
    (c3_decode_handling cfg0 (.ok []) fsEmpty envAllOk "!!".toList v0 (by decide)).2.1⟩

lemma fetch_err_of_mkdir_failure (cfg : Config) (e : FetchEnv) (em v : Str)
    (ht : e.tempOk = true) (hmf : e.mkdirOk = false) :
    fetchOutcomeOf cfg e em v = .errored e.mkdirErr := by
  simp [fetchOutcomeOf, fetchAndCache, ht, hmf]

lemma fetch_fatal_of_local_failure (cfg : Config) (e : FetchEnv) (em v : Str)
    (ht : e.tempOk = true) (hmk : e.mkdirOk = true) (hc : e.cloneOk = true)
    (hdisj : e.logOk = false ∨ e.marshalOk = false ∨ e.writeInfoOk = false ∨
      e.copyModOk = false ∨ e.archiveOk = false ∨ e.copyZipOk = false) :
    fetchOutcomeOf cfg e em v = .fatal := by
  rcases e with ⟨t, mk, cl, lg, ms, wi, cm, ar, cz, ld, mc, rf, me, ce⟩
  simp only at ht hmk hc
  subst ht; subst hmk; subst hc
  cases lg <;> cases ms <;> cases wi <;> cases cm <;> cases ar <;> cases cz <;>
    simp_all [fetchOutcomeOf, fetchAndCache]

/-- C4 amended: for a fetch triggered by any artifact request (`.info`,
`.mod` or `.zip`), of the local steps only cache-directory creation failure
surfaces synchronously as a 500 response to the originating request; failure
of any later local step (reading the commit timestamp, JSON encoding,
writing the info file, copying `go.mod`, assembling or copying the archive)
terminates the process via `log.Fatalf` without a response.  No retries
happen: each request performs at most one fetch execution. -/
theorem c4_failure_surfacing (cfg : Config) (fs : Nat → Str → Option Artifact)
    (e : FetchEnv) (em v : Str)
    (hpi : fs 0 (infoFileName cfg em v) = none)
    (hpm : fs 0 (modFileName cfg em v) = none)
    (hpz : fs 0 (zipFileName cfg em v) = none) :
    (e.tempOk = true → e.mkdirOk = false →
      info cfg fs e em v =
        ⟨.resp (httpError (setHeader (setHeader [] ccKey noStore) ctKey jsonMime)
          e.mkdirErr 500), 1⟩ ∧
      mod cfg fs e em v =
        ⟨.resp (httpError (setHeader (setHeader [] ccKey noStore) ctKey modMime)
          e.mkdirErr 500), 1⟩ ∧
      zip cfg fs e em v =
        ⟨.resp (httpError (setHeader (setHeader [] ccKey noStore) ctKey zipMime)
          e.mkdirErr 500), 1⟩) ∧
    (e.tempOk = true → e.mkdirOk = true → e.cloneOk = true →
      (e.logOk = false ∨ e.marshalOk = false ∨ e.writeInfoOk = false ∨
       e.copyModOk = false ∨ e.archiveOk = false ∨ e.copyZipOk = false) →
      (info cfg fs e em v).result = .died ∧
      (mod cfg fs e em v).result = .died ∧
      (zip cfg fs e em v).result = .died) ∧
    (info cfg fs e em v).fetchCalls ≤ 1 ∧
    (mod cfg fs e em v).fetchCalls ≤ 1 ∧
    (zip cfg fs e em v).fetchCalls ≤ 1 := by
  refine ⟨?_, ?_, ?_, ?_, ?_⟩
  · intro ht hmf
    have herr := fetch_err_of_mkdir_failure cfg e em v ht hmf
    refine ⟨?_, ?_, ?_⟩
    · simp [info, serveCachedFile, hpi, herr, setHeader]
    · simp [mod, serveCachedFile, hpm, herr, setHeader]
    · simp [zip, serveCachedFile, hpz, herr, setHeader]
  · intro ht hmk hc hdisj
    have hfat := fetch_fatal_of_local_failure cfg e em v ht hmk hc hdisj
    refine ⟨?_, ?_, ?_⟩
    · simp [info, serveCachedFile, hpi, hfat]
    · simp [mod, serveCachedFile, hpm, hfat]
    · simp [zip, serveCachedFile, hpz, hfat]
  · rcases ho : fetchOutcomeOf cfg e em v with _ | msg | _ <;>
      simp [info, serveCachedFile, hpi, ho]
    rcases hfs1 : fs 1 (infoFileName cfg em v) with _ | b <;> simp
  · rcases ho : fetchOutcomeOf cfg e em v with _ | msg | _ <;>
      simp [mod, serveCachedFile, hpm, ho]
    rcases hfs1 : fs 1 (modFileName cfg em v) with _ | b <;> simp
  · rcases ho : fetchOutcomeOf cfg e em v with _ | msg | _ <;>
      simp [zip, serveCachedFile, hpz, ho]
    rcases hfs1 : fs 1 (zipFileName cfg em v) with _ | b <;> simp

theorem c4_failure_surfacing_witness :
    fsEmpty 0 (infoFileName cfg0 em0 v0) = none ∧
    (info cfg0 fsEmpty envMkdirFail em0 v0 =
      ⟨.resp (httpError (setHeader (setHeader [] ccKey noStore) ctKey jsonMime)
        envMkdirFail.mkdirErr 500), 1⟩ ∧
     mod cfg0 fsEmpty envMkdirFail em0 v0 =
      ⟨.resp (httpError (setHeader (setHeader [] ccKey noStore) ctKey modMime)
        envMkdirFail.mkdirErr 500), 1⟩ ∧
     zip cfg0 fsEmpty envMkdirFail em0 v0 =
      ⟨.resp (httpError (setHeader (setHeader [] ccKey noStore) ctKey zipMime)
        envMkdirFail.mkdirErr 500), 1⟩) :=
  ⟨rfl, (c4_failure_surfacing cfg0 fsEmpty envMkdirFail em0 v0 rfl rfl rfl).1 rfl rfl⟩

/-- C10: when the first probe misses, the fetch returns without error, and
the second probe still misses, each artifact handler writes no error status
or body: the response is an implicit 200 carrying only the content type and
`Cache-Control: no-store` headers and an empty body, because
`serveCachedFile` sets both headers unconditionally before the existence
check. -/
theorem c10_empty_200 (cfg : Config) (fs : Nat → Str → Option Artifact)
    (e : FetchEnv) (em v : Str) (hok : fetchOutcomeOf cfg e em v = .ok) :
    (fs 0 (infoFileName cfg em v) = none → fs 1 (infoFileName cfg em v) = none →
      info cfg fs e em v =
        ⟨.resp ⟨200, [(ctKey, jsonMime), (ccKey, noStore)], .text []⟩, 1⟩) ∧
    (fs 0 (modFileName cfg em v) = none → fs 1 (modFileName cfg em v) = none →
      mod cfg fs e em v =
        ⟨.resp ⟨200, [(ctKey, modMime), (ccKey, noStore)], .text []⟩, 1⟩) ∧
    (fs 0 (zipFileName cfg em v) = none → fs 1 (zipFileName cfg em v) = none →
      zip cfg fs e em v =
        ⟨.resp ⟨200, [(ctKey, zipMime), (ccKey, noStore)], .text []⟩, 1⟩) := by
  refine ⟨?_, ?_, ?_⟩
  · intro h0 h1
    simp [info, serveCachedFile, h0, hok, h1, setHeader]
    decide
  · intro h0 h1
    simp [mod, serveCachedFile, h0, hok, h1, setHeader]
    decide
  · intro h0 h1
    simp [zip, serveCachedFile, h0, hok, h1, setHeader]
    decide

theorem c10_empty_200_witness :
    fetchOutcomeOf cfg0 envAllOk em0 v0 = .ok ∧
    info cfg0 fsEmpty envAllOk em0 v0 =
      ⟨.resp ⟨200, [(ctKey, jsonMime), (ccKey, noStore)], .text []⟩, 1⟩ ∧
    mod cfg0 fsEmpty envAllOk em0 v0 =
      ⟨.resp ⟨200, [(ctKey, modMime), (ccKey, noStore)], .text []⟩, 1⟩ ∧
    zip cfg0 fsEmpty envAllOk em0 v0 =
      ⟨.resp ⟨200, [(ctKey, zipMime), (ccKey, noStore)], .text []⟩, 1⟩ :=
  ⟨by decide,
    (c10_empty_200 cfg0 fsEmpty envAllOk em0 v0 (by decide)).1 rfl rfl,
    (c10_empty_200 cfg0 fsEmpty envAllOk em0 v0 (by decide)).2.1 rfl rfl,
    (c10_empty_200 cfg0 fsEmpty envAllOk em0 v0 (by decide)).2.2 rfl rfl⟩

/-- C8 counterexample: the namespace-rejection 404 produced by `isValidPkg`
carries no `Cache-Control` header at all — `http.Error` only sets
`Content-Type` and `X-Content-Type-Options`. -/
theorem c8_missing_no_store :
    isValidPkg cfg0 "/other.org/pkg/@v/list".toList =
      some (httpError [] ("/other.org/pkg/@v/list".toList ++ " is ignored".toList) 404) ∧
    hasCC (httpError [] ("/other.org/pkg/@v/list".toList ++ " is ignored".toList) 404)
      = false := by
  decide

lemma pathJoin4_eq (d a b s : Str) :
    pathJoin [d, a, b, s] = (d ++ '/' :: (a ++ '/' :: (b ++ ['/']))) ++ s := by
  simp [pathJoin, List.append_assoc]

lemma ends_ne (P : Str) {s1 s2 : Str} {c1 c2 : Char} {t1 t2 : Str}
    (h1 : s1.reverse = c1 :: t1) (h2 : s2.reverse = c2 :: t2) (hc : c1 ≠ c2) :
    P ++ s1 ≠ P ++ s2 := by
  intro h
  have hs : s1 = s2 := List.append_cancel_left h
  have hrev := congrArg List.reverse hs
  rw [h1, h2] at hrev
  exact hc (by injection hrev)

lemma reverse_info (v : Str) :
    (v ++ ".info".toList).reverse = 'o' :: ("fni.".toList ++ v.reverse) := by
  rw [List.reverse_append]; rfl

/-- The three artifact paths of one cache entry are pairwise distinct: they
share the directory part and end in `.info`, `go.mod`, `source.zip`. -/
lemma infoF_ne_modF (cfg : Config) (em v : Str) :
    infoFileName cfg em v ≠ modFileName cfg em v := by
  unfold infoFileName modFileName
  rw [pathJoin4_eq, pathJoin4_eq]
  exact ends_ne _ (reverse_info v) rfl (by decide)

lemma infoF_ne_zipF (cfg : Config) (em v : Str) :
    infoFileName cfg em v ≠ zipFileName cfg em v := by
  unfold infoFileName zipFileName
  rw [pathJoin4_eq, pathJoin4_eq]
  exact ends_ne _ (reverse_info v) rfl (by decide)

lemma modF_ne_zipF (cfg : Config) (em v : Str) :
    modFileName cfg em v ≠ zipFileName cfg em v := by
  unfold modFileName zipFileName
  rw [pathJoin4_eq, pathJoin4_eq]
  exact ends_ne _ rfl rfl (by decide)

/-- A fetch returns `nil` exactly when all of its external steps succeed. -/
lemma fetch_ok_flags (cfg : Config) (e : FetchEnv) (em v : Str) (c0 : Cache)
    (hok : (fetchAndCache cfg e em v c0).outcome = .ok) :
    e.tempOk = true ∧ e.mkdirOk = true ∧ e.cloneOk = true ∧ e.logOk = true ∧
    e.marshalOk = true ∧ e.writeInfoOk = true ∧ e.copyModOk = true ∧
    e.archiveOk = true ∧ e.copyZipOk = true := by
  unfold fetchAndCache at hok
  split_ifs at hok with h1 h2 h3 h4 h5 h6 h7 h8 h9
  all_goals simp_all

lemma cc_ne_ct : (ccKey == ctKey) = false := by decide

/-- C7: after one successful fetch for a key, every request for that key is
answered from the cache — each handler hits on its first probe, serves
exactly the artifact bytes the fetch installed (the Info record built from
the fetch's commit timestamp, the copied `go.mod` content, the produced
archive), and performs zero further fetch executions. -/
theorem c7_cache_idempotence (cfg : Config) (e e2 : FetchEnv) (em v : Str) (c0 : Cache)
    (hok : (fetchAndCache cfg e em v c0).outcome = .ok) :
    info cfg (fun _ p => clookup (fetchAndCache cfg e em v c0).cache p) e2 em v =
      ⟨.resp ⟨200, [(ctKey, jsonMime), (ccKey, noStore)],
        .text (jsonInfo v e.logDate)⟩, 0⟩ ∧
    mod cfg (fun _ p => clookup (fetchAndCache cfg e em v c0).cache p) e2 em v =
      ⟨.resp ⟨200, [(ctKey, modMime), (ccKey, noStore)],
        .text e.modContent⟩, 0⟩ ∧
    zip cfg (fun _ p => clookup (fetchAndCache cfg e em v c0).cache p) e2 em v =
      ⟨.resp ⟨200, [(ctKey, zipMime), (ccKey, noStore)],
        .zipA (zipEntriesOf em v e.repoFiles)⟩, 0⟩ := by
  obtain ⟨h1, h2, h3, h4, h5, h6, h7, h8, h9⟩ := fetch_ok_flags cfg e em v c0 hok
  have hmi : (modFileName cfg em v == infoFileName cfg em v) = false :=
    beq_eq_false_iff_ne.mpr (Ne.symm (infoF_ne_modF cfg em v))
  have hzi : (zipFileName cfg em v == infoFileName cfg em v) = false :=
    beq_eq_false_iff_ne.mpr (Ne.symm (infoF_ne_zipF cfg em v))
  have hzm : (zipFileName cfg em v == modFileName cfg em v) = false :=
    beq_eq_false_iff_ne.mpr (Ne.symm (modF_ne_zipF cfg em v))
  refine ⟨?_, ?_, ?_⟩ <;>
    simp [fetchAndCache, h1, h2, h3, h4, h5, h6, h7, h8, h9, clookup, cinsert,
      List.find?, hmi, hzi, hzm, info, mod, zip, serveCachedFile, setHeader, cc_ne_ct]

theorem c7_cache_idempotence_witness :
    (fetchAndCache cfg0 envAllOk em0 v0 []).outcome = .ok ∧
    info cfg0 (fun _ p => clookup (fetchAndCache cfg0 envAllOk em0 v0 []).cache p)
        envAllOk em0 v0 =
      ⟨.resp ⟨200, [(ctKey, jsonMime), (ccKey, noStore)],
        .text (jsonInfo v0 envAllOk.logDate)⟩, 0⟩ :=
  ⟨by decide,
    (c7_cache_idempotence cfg0 envAllOk envAllOk em0 v0 [] (by decide)).1⟩

lemma xcto_ne_cc : (xctoKey == ccKey) = false := by decide

lemma ct_ne_cc : (ctKey == ccKey) = false := by decide

lemma cc_self : (ccKey == ccKey) = true := by decide

/-- C8 amended: every response of the `.info`, `.mod` and `.zip` handlers —
including the 500 on fetch failure and the empty 200 — carries
`Cache-Control: no-store`, as does a successful `list` response; but the
`list` error responses (400 on decode failure, 404 on listing failure) and
the namespace-rejection 404 of `isValidPkg` carry no `Cache-Control` header
at all. -/
theorem c8_no_store_coverage (cfg : Config) (fs : Nat → Str → Option Artifact)
    (e : FetchEnv) (em v : Str) :
    hasNoStore (info cfg fs e em v).result ∧
    hasNoStore (mod cfg fs e em v).result ∧
    hasNoStore (zip cfg fs e em v).result ∧
    (∀ lines, ccValue (list (.ok lines) em).resp =
      if (unescapePath em).isSome = true then some noStore else none) ∧
    (∀ msg, ccValue (list (.error msg) em).resp = none) ∧
    (∀ p, ((isValidPkg cfg p).all (fun r => (ccValue r).isNone)) = true) := by
  refine ⟨?_, ?_, ?_, ?_, ?_, ?_⟩
  · unfold info
    rcases hfs : fs 0 (infoFileName cfg em v) with _ | a
    · simp [serveCachedFile, hfs]
      rcases ho : fetchOutcomeOf cfg e em v with _ | msg | _ <;>
        simp [ho, httpError, setHeader, hasNoStore, ccValue, List.find?,
          xcto_ne_cc, ct_ne_cc, cc_ne_ct, cc_self]
      rcases hfs1 : fs 1 (infoFileName cfg em v) with _ | b <;>
        simp [hasNoStore, ccValue, setHeader, List.find?, ct_ne_cc, cc_ne_ct, cc_self]
    · simp [serveCachedFile, hfs, hasNoStore, ccValue, setHeader, List.find?,
        ct_ne_cc, cc_ne_ct, cc_self]
  · unfold mod
    rcases hfs : fs 0 (modFileName cfg em v) with _ | a
    · simp [serveCachedFile, hfs]
      rcases ho : fetchOutcomeOf cfg e em v with _ | msg | _ <;>
        simp [ho, httpError, setHeader, hasNoStore, ccValue, List.find?,
          xcto_ne_cc, ct_ne_cc, cc_ne_ct, cc_self]
      rcases hfs1 : fs 1 (modFileName cfg em v) with _ | b <;>
        simp [hasNoStore, ccValue, setHeader, List.find?, ct_ne_cc, cc_ne_ct, cc_self]
    · simp [serveCachedFile, hfs, hasNoStore, ccValue, setHeader, List.find?,
        ct_ne_cc, cc_ne_ct, cc_self]
  · unfold zip
    rcases hfs : fs 0 (zipFileName cfg em v) with _ | a
    · simp [serveCachedFile, hfs]
      rcases ho : fetchOutcomeOf cfg e em v with _ | msg | _ <;>
        simp [ho, httpError, setHeader, hasNoStore, ccValue, List.find?,
          xcto_ne_cc, ct_ne_cc, cc_ne_ct, cc_self]
      rcases hfs1 : fs 1 (zipFileName cfg em v) with _ | b <;>
        simp [hasNoStore, ccValue, setHeader, List.find?, ct_ne_cc, cc_ne_ct, cc_self]
    · simp [serveCachedFile, hfs, hasNoStore, ccValue, setHeader, List.find?,
        ct_ne_cc, cc_ne_ct, cc_self]
  · intro lines
    rcases hdec : unescapePath em with _ | m <;>
      simp [list, hdec, httpError, setHeader, ccValue, List.find?,
        xcto_ne_cc, ct_ne_cc, cc_ne_ct, cc_self]
  · intro msg
    rcases hdec : unescapePath em with _ | m <;>
      simp [list, hdec, httpError, setHeader, ccValue, List.find?,
        xcto_ne_cc, ct_ne_cc, cc_ne_ct, cc_self]
  · intro p
    unfold isValidPkg
    split
    · simp
    · simp [httpError, setHeader, ccValue, List.find?, xcto_ne_cc, ct_ne_cc]

/-- C9 amended: every entry of the cached archive lies under the prefix
`<em>@<version>/`, where `em` is the raw escaped module segment from the URL
(not the decoded module name — see the counterexample), and the archive
content is the working tree (version-control metadata excluded by
`git archive`). -/
theorem c9_archive_root (cfg : Config) (e : FetchEnv) (name version : Str) (c0 : Cache)
    (hok : (fetchAndCache cfg e name version c0).outcome = .ok) :
    clookup (fetchAndCache cfg e name version c0).cache (zipFileName cfg name version) =
      some (.zipA (zipEntriesOf name version e.repoFiles)) ∧
    ∀ ent ∈ zipEntriesOf name version e.repoFiles,
      (name ++ '@' :: (version ++ ['/'])) <+: ent := by
  obtain ⟨h1, h2, h3, h4, h5, h6, h7, h8, h9⟩ := fetch_ok_flags cfg e name version c0 hok
  constructor
  · simp [fetchAndCache, h1, h2, h3, h4, h5, h6, h7, h8, h9, clookup, cinsert, List.find?]
  · intro ent hent
    simp only [zipEntriesOf, List.mem_map] at hent
    obtain ⟨f, hf, rfl⟩ := hent
    refine ⟨f, ?_⟩
    simp [List.append_assoc]

theorem c9_archive_root_witness :
    (fetchAndCache cfg0 envAllOk em0 v0 []).outcome = .ok ∧
    clookup (fetchAndCache cfg0 envAllOk em0 v0 []).cache (zipFileName cfg0 em0 v0) =
      some (.zipA (zipEntriesOf em0 v0 envAllOk.repoFiles)) ∧
    ∀ ent ∈ zipEntriesOf em0 v0 envAllOk.repoFiles,
      (em0 ++ '@' :: (v0 ++ ['/'])) <+: ent :=
  ⟨by decide,
    (c9_archive_root cfg0 envAllOk em0 v0 [] (by decide)).1,
    (c9_archive_root cfg0 envAllOk em0 v0 [] (by decide)).2⟩

/-- C9 counterexample: the archive prefix is built from the raw escaped
module segment, not the decoded module name.  For the escaped module
`pegasus-cloud.com/aes/!toolkit` (decoded name `pegasus-cloud.com/aes/Toolkit`)
the cached zip's first entry starts with
`pegasus-cloud.com/aes/!toolkit@v0.4.5/` and does not lie under the decoded
prefix `pegasus-cloud.com/aes/Toolkit@v0.4.5/`. -/
theorem c9_prefix_uses_escaped_name :
    (fetchAndCache cfg0 envAllOk emEsc v0 []).outcome = .ok ∧
    unescapePath emEsc = some "pegasus-cloud.com/aes/Toolkit".toList ∧
    clookup (fetchAndCache cfg0 envAllOk emEsc v0 []).cache (zipFileName cfg0 emEsc v0) =
      some (.zipA (zipEntriesOf emEsc v0 envAllOk.repoFiles)) ∧
    ¬ (("pegasus-cloud.com/aes/Toolkit".toList ++ '@' :: v0 ++ ['/']) <+:
        (zipEntriesOf emEsc v0 envAllOk.repoFiles).getD 0 []) := by
  decide


lemma literal_unescape_append (p xs : Str) (hp : ∀ c ∈ p, literalChar c) :
    unescapeAux false (p ++ xs) = (unescapeAux false xs).map (fun s => p ++ s) := by
  induction p with
  | nil =>
    cases h : unescapeAux false xs <;> simp [h]
  | cons c p ih =>
    obtain ⟨h1, h2, h3⟩ := hp c (by simp)
    have hlt : ¬ (128 ≤ c.toNat) := by omega
    rw [List.cons_append]
    rw [show unescapeAux false (c :: (p ++ xs)) =
      (unescapeAux false (p ++ xs)).map (fun s => c :: s) by
        simp [unescapeAux, hlt, h1, h2]]
    rw [ih (fun d hd => hp d (by simp [hd]))]
    cases h : unescapeAux false xs <;> simp [h]

/-- Every route path is the slash, the raw module segment, then `/@`
followed by the rest of the endpoint shape. -/
lemma pathOf_decomp (r : Route) :
    pathOf r = '/' :: (moduleOf r ++ ('/' :: '@' :: restOf r)) := by
  cases r <;> simp [pathOf, moduleOf, restOf]

lemma prefix_append_cases {S em tail : Str} (h : S <+: em ++ tail) :
    S <+: em ∨ ∃ t, S = em ++ t ∧ t <+: tail := by
  induction em generalizing S with
  | nil =>
    right
    exact ⟨S, rfl, by simpa using h⟩
  | cons a em ih =>
    cases S with
    | nil => left; exact List.nil_prefix
    | cons b S =>
      rw [List.cons_append, List.cons_prefix_cons] at h
      obtain ⟨rfl, h⟩ := h
      rcases ih h with h' | ⟨t, rfl, ht⟩
      · left; exact List.cons_prefix_cons.mpr ⟨rfl, h'⟩
      · right; exact ⟨t, rfl, ht⟩

/-- Decoding maps a literal prefix of the escaped input to the same literal
prefix of the decoded output. -/
lemma literal_prefix_of_unescape {S em m : Str} (hlit : ∀ c ∈ S, literalChar c)
    (hdec : unescapeAux false em = some m) (hSem : S <+: em) : S <+: m := by
  obtain ⟨k, rfl⟩ := hSem
  rw [literal_unescape_append S k hlit] at hdec
  cases hq : unescapeAux false k with
  | none => rw [hq] at hdec; simp at hdec
  | some m2 =>
    rw [hq] at hdec
    simp at hdec
    exact ⟨m2, hdec⟩

/-- If the decoded module does not fall under the namespace, the raw request
path does not carry the `/<namespace>` prefix either (for a sane namespace:
only literal characters, no `@`, not ending in a slash). -/
lemma srcRepo_not_on_path (S em m t0 : Str)
    (hlit : ∀ c ∈ S, literalChar c)
    (hat : '@' ∉ S)
    (hlast : S.getLast? ≠ some '/')
    (hdec : unescapeAux false em = some m)
    (hnp : ¬ S <+: m) :
    ¬ ('/' :: S) <+: ('/' :: (em ++ ('/' :: '@' :: t0))) := by
  intro h
  rw [List.cons_prefix_cons] at h
  obtain ⟨-, h⟩ := h
  rcases prefix_append_cases h with hSem | ⟨t, hS, ht⟩
  · exact hnp (literal_prefix_of_unescape hlit hdec hSem)
  · cases t with
    | nil =>
      rw [List.append_nil] at hS
      subst hS
      exact hnp (literal_prefix_of_unescape hlit hdec (List.prefix_refl _))
    | cons a t2 =>
      rw [List.cons_prefix_cons] at ht
      obtain ⟨rfl, ht⟩ := ht
      cases t2 with
      | nil =>
        apply hlast
        rw [hS]
        simp [List.getLast?_append_cons]
      | cons b t3 =>
        rw [List.cons_prefix_cons] at ht
        obtain ⟨rfl, -⟩ := ht
        apply hat
        rw [hS]
        simp

/-- C6: a request (of any of the four endpoint shapes) whose decoded module
path does not fall under the configured source namespace is answered 404 by
the `isValidPkg` middleware with zero side effects — no fetch and no git
listing — and a body that only echoes the request as ignored.  The
hypotheses on the namespace hold for any real configuration: a module
namespace consists of literal (lowercase ASCII) characters, contains no `@`,
and does not end in a slash. -/
theorem c6_namespace_rejection (cfg : Config) (fs : Nat → Str → Option Artifact)
    (e : FetchEnv) (gitResult : Except Str (List Str)) (r : Route) (m : Str)
    (hlit : ∀ c ∈ cfg.srcRepo, literalChar c)
    (hat : '@' ∉ cfg.srcRepo)
    (hlast : cfg.srcRepo.getLast? ≠ some '/')
    (hdec : unescapePath (moduleOf r) = some m)
    (hnp : ¬ cfg.srcRepo <+: m) :
    handleRequest cfg fs e gitResult r =
      ⟨.resp (httpError [] (pathOf r ++ " is ignored".toList) 404), 0, 0⟩ := by
  have hnot := srcRepo_not_on_path cfg.srcRepo (moduleOf r) m (restOf r)
    hlit hat hlast hdec hnp
  rw [← pathOf_decomp r] at hnot
  unfold handleRequest isValidPkg
  rw [if_neg hnot]

theorem c6_namespace_rejection_witness :
    (¬ cfg0.srcRepo <+: "other.org/pkg".toList) ∧
    handleRequest cfg0 fsEmpty envAllOk (.ok []) (.listR "other.org/pkg".toList) =
      ⟨.resp (httpError []
        (pathOf (.listR "other.org/pkg".toList) ++ " is ignored".toList) 404), 0, 0⟩ :=
  ⟨by decide,
    c6_namespace_rejection cfg0 fsEmpty envAllOk (.ok []) (.listR "other.org/pkg".toList)
      "other.org/pkg".toList (by decide) (by decide) (by decide) (by decide) (by decide)⟩

end TrustedCloudProxy
